import Mathlib

/-!
Verification development for the tennis-court booking bot.

The definitions below are a shallow embedding of the bot's core logic:
* `PTime`, `mkTime`              — Python `datetime.time(hour, minute)` (construction
                                   raises `ValueError` outside 0..23 / 0..59, modelled
                                   by `Option`).
* `parseSlotText`                — `BookingPage._parse_slot_text` including its regex
                                   `(\d{1,2}):?(\d{2})?\s*(AM|PM)?` (first match,
                                   case-insensitive; the match is modelled by a direct
                                   greedy scan, which is exact here because every part
                                   of the pattern after the leading digits is optional,
                                   so the regex engine never needs to backtrack).
* `scanSlots`                    — `BookingPage.get_available_slots`: the page elements
                                   are modelled as a list of `Except` values, one per
                                   element; `Except.error` is an exception raised while
                                   reading the element, which the Python code catches
                                   with its blanket `except Exception`, keeping the
                                   slots collected so far.
* `windowFiltered`, `candidateSlots`, `courtPriority`, `sortByCourt`, `tryBook`,
  `bookPreferredSlot`            — `BookingPage.book_preferred_slot` and
                                   `BookingPage.book_slot` (the latter returns a bool
                                   and swallows its own exceptions, modelled by
                                   `BookOutcome`/`bookSlotResult`).
* `attemptBookingOnce`           — the body of `ICondoBot.attempt_booking`
                                   (login → navigate → book; `BookingError` as
                                   `Except.error`).
* `tenacityWait`, `retryGo`      — the tenacity decorator
                                   `retry(stop=stop_after_attempt(3),
                                   wait=wait_exponential(multiplier=1, min=2, max=10),
                                   retry=retry_if_exception_type(BookingError),
                                   reraise=True)`.
* `civilToDays`, `weekdayIdx`, `shouldBookToday`
                                 — `ICondoBot.should_book_today` over the proleptic
                                   Gregorian calendar (dates as day counts, weekday 0 =
                                   Sunday matching `strftime` day names).
-/

namespace TennisBot

/-- Python `datetime.time` restricted to the hour/minute fields the bot uses. -/
structure PTime where
  hour : Nat
  minute : Nat
deriving DecidableEq, Repr

/-- Python `time(h, m)`: raises `ValueError` (here `none`) outside the valid ranges. -/
def mkTime (h m : Nat) : Option PTime :=
  if h ≤ 23 && m ≤ 59 then some ⟨h, m⟩ else none

/-- Python `time` comparison `a <= b` (lexicographic on (hour, minute)). -/
def PTime.le (a b : PTime) : Bool :=
  decide (a.hour < b.hour ∨ (a.hour = b.hour ∧ a.minute ≤ b.minute))

/-- The `BookingSlot` dataclass from `booking_page.py`. Dates are day counts. -/
structure BookingSlot where
  court : String
  date : Nat
  start_time : PTime
  end_time : PTime
  available : Bool
  element_selector : Option String
deriving DecidableEq, Repr

/-! ### The slot-text parser `_parse_slot_text` -/

/-- Numeric value of a decimal digit character. -/
def digitVal (c : Char) : Nat := c.toNat - 48

/-- Drop the leading whitespace (the `\s*` part of the pattern). -/
def skipWs : List Char → List Char
  | [] => []
  | c :: r => if c.isWhitespace then skipWs r else c :: r

/-- The `(AM|PM)?` group, case-insensitive; `some true` means PM, `some false` AM.
The Python code only ever tests the upper-cased group against "AM"/"PM", so
recording which alternative matched is an exact model of the group. -/
def matchAmPm : List Char → Option Bool
  | c1 :: c2 :: _ =>
    if (c1 = 'A' ∨ c1 = 'a') ∧ (c2 = 'M' ∨ c2 = 'm') then some false
    else if (c1 = 'P' ∨ c1 = 'p') ∧ (c2 = 'M' ∨ c2 = 'm') then some true
    else none
  | _ => none

/-- Match `(\d{1,2}):?(\d{2})?\s*(AM|PM)?` at a position whose first character is the
digit `c1`. Returns (hour-group value, minute group, AM/PM group). -/
def matchTimeAt (c1 : Char) (rest : List Char) : Nat × Option Nat × Option Bool :=
  let hr : Nat × List Char :=
    match rest with
    | c2 :: r2 => if c2.isDigit then (digitVal c1 * 10 + digitVal c2, r2) else (digitVal c1, c2 :: r2)
    | [] => (digitVal c1, [])
  let afterColon : List Char :=
    match hr.2 with
    | c :: r => if c = ':' then r else c :: r
    | [] => []
  let mins : Option Nat × List Char :=
    match afterColon with
    | a :: b :: r =>
      if a.isDigit && b.isDigit then (some (digitVal a * 10 + digitVal b), r)
      else (none, a :: b :: r)
    | other => (none, other)
  (hr.1, mins.1, matchAmPm (skipWs mins.2))

/-- First match of the time pattern in the text (`re.findall(...)[0]`): the pattern
requires at least one digit, so the first match starts at the first digit. -/
def firstTimeMatch : List Char → Option (Nat × Option Nat × Option Bool)
  | [] => none
  | c :: rest => if c.isDigit then some (matchTimeAt c rest) else firstTimeMatch rest

/-- An apostrophe character, used in the generated CSS selector. -/
def sq : String := String.singleton (Char.ofNat 39)

/-- The selector string built for slot `index`. -/
def slotSelector (index : Nat) : String :=
  "[class*=" ++ sq ++ "slot" ++ sq ++ "]:nth-child(" ++ toString (index + 1) ++ ")"

/-- `BookingPage._parse_slot_text(text, index)`; `today` is `date.today()`. -/
def parseSlotText (today : Nat) (text : String) (index : Nat) : Option BookingSlot :=
  match firstTimeMatch text.toList with
  | none => none
  | some (h0, mOpt, amPm) =>
    let minute := mOpt.getD 0
    let hour :=
      if amPm = some true ∧ h0 ≠ 12 then h0 + 12
      else if amPm = some false ∧ h0 = 12 then 0
      else h0
    match mkTime hour minute, mkTime (hour + 1) minute with
    | some s, some e =>
      some { court := "Tennis Court", date := today, start_time := s, end_time := e,
             available := false, element_selector := some (slotSelector index) }
    | _, _ => none

/-! ### The slot scanner `get_available_slots` -/

/-- Whether the pattern is a prefix of the character list. -/
def charsStartWith : List Char → List Char → Bool
  | _, [] => true
  | [], _ :: _ => false
  | c :: cs, p :: ps => p == c && charsStartWith cs ps

/-- Whether the pattern occurs as a contiguous substring of the character list. -/
def charsHaveSub : List Char → List Char → Bool
  | [], pat => pat.isEmpty
  | c :: t, pat => charsStartWith (c :: t) pat || charsHaveSub t pat

/-- Python `pat in s` on strings. -/
def strContains (s pat : String) : Bool := charsHaveSub s.toList pat.toList

/-- The markers that make `get_available_slots` skip an element outright. -/
def unavailMarkers : List String := ["booked", "disabled", "unavailable"]

/-- The scan loop of `get_available_slots`. Each element is modelled as
`Except.ok (classAttr, text)` or `Except.error msg` when reading it raises; a raise
escapes to the surrounding `try`, which logs and returns the slots collected so far. -/
def scanGo (today : Nat) : Nat → List (Except String (String × String)) → List BookingSlot
  | _, [] => []
  | _, Except.error _ :: _ => []
  | i, Except.ok (classAttr, text) :: rest =>
    if unavailMarkers.any (fun x => strContains classAttr.toLower x) then
      scanGo today (i + 1) rest
    else
      match parseSlotText today text i with
      | some slot =>
        if strContains classAttr.toLower "available" then
          { slot with available := true } :: scanGo today (i + 1) rest
        else scanGo today (i + 1) rest
      | none => scanGo today (i + 1) rest

/-- `BookingPage.get_available_slots` as a function of the scraped elements. -/
def scanSlots (today : Nat) (elems : List (Except String (String × String))) :
    List BookingSlot :=
  scanGo today 0 elems

/-! ### Slot selection in `book_preferred_slot` -/

/-- The time-window filter (`in_window` list comprehension). -/
def windowFiltered (startPref endPref : PTime) (slots : List BookingSlot) :
    List BookingSlot :=
  slots.filter (fun s => s.available && PTime.le startPref s.start_time
    && PTime.le s.start_time endPref)

/-- `True` exactly when the code's `if not in_window:` fallback branch runs. -/
def usesFallback (startPref endPref : PTime) (slots : List BookingSlot) : Bool :=
  (windowFiltered startPref endPref slots).isEmpty

/-- The candidate list after the window filter and the all-available fallback. -/
def candidateSlots (startPref endPref : PTime) (slots : List BookingSlot) :
    List BookingSlot :=
  let w := windowFiltered startPref endPref slots
  if w.isEmpty then slots.filter (fun s => s.available) else w

/-- Last index at which `c` occurs, accumulator style: the dict comprehension
`{c: i for i, c in enumerate(preferred_courts)}` maps each court to the index of its
last occurrence (later assignments overwrite earlier ones). -/
def lastIdxFrom (c : String) : List String → Nat → Option Nat → Option Nat
  | [], _, acc => acc
  | x :: rest, i, acc => lastIdxFrom c rest (i + 1) (if x == c then some i else acc)

/-- `court_priority.get(court, 999)`. -/
def courtPriority (courts : List String) (c : String) : Nat :=
  (lastIdxFrom c courts 0 none).getD 999

/-- Sort key of a slot (`lambda s: court_priority.get(s.court, 999)`). -/
def slotKey (courts : List String) (s : BookingSlot) : Nat :=
  courtPriority courts s.court

/-- `in_window.sort(key=...)`: Python list.sort is a stable sort, and a stable sort
by a given key is extensionally unique, so it is modelled with the stable
`List.insertionSort` on comparison of keys. -/
def sortByCourt (courts : List String) (l : List BookingSlot) : List BookingSlot :=
  l.insertionSort (fun a b => slotKey courts a ≤ slotKey courts b)

/-- The ordered candidate sequence `book_preferred_slot` attempts, in order. -/
def rankSlots (startPref endPref : PTime) (courts : List String)
    (slots : List BookingSlot) : List BookingSlot :=
  sortByCourt courts (candidateSlots startPref endPref slots)

/-! ### The per-slot booking loop and one full attempt -/

/-- Outcome of the page interaction inside `book_slot` for one slot: the success
indicator appeared, it timed out, or some step raised. -/
inductive BookOutcome where
  | success
  | noIndicator
  | exn (msg : String)
deriving DecidableEq, Repr

/-- `book_slot` returns `True` only when the success indicator was found; a timeout
or an exception is caught inside `book_slot` and yields `False`. -/
def bookSlotResult : BookOutcome → Bool
  | .success => true
  | .noIndicator => false
  | .exn _ => false

/-- The `for slot in in_window:` loop: stamp the target date onto the slot, try to
book it, return it on success, otherwise advance to the next candidate. -/
def tryBook (book : BookingSlot → BookOutcome) (targetDate : Nat) :
    List BookingSlot → Option BookingSlot
  | [] => none
  | s :: rest =>
    let stamped := { s with date := targetDate }
    if bookSlotResult (book stamped) then some stamped
    else tryBook book targetDate rest

/-- `BookingPage.book_preferred_slot` on an already-scraped slot list. -/
def bookPreferredSlot (book : BookingSlot → BookOutcome) (targetDate : Nat)
    (startPref endPref : PTime) (courts : List String) (slots : List BookingSlot) :
    Option BookingSlot :=
  if slots.isEmpty then none
  else
    let cands := candidateSlots startPref endPref slots
    if cands.isEmpty then none
    else tryBook book targetDate (sortByCourt courts cands)

/-- The collaborator behavior one attempt observes: login result, whether an
exception is raised during navigation/date handling outside the scan loop's own
`try`, the scraped elements, the per-slot booking outcomes, and today's date. -/
structure AttemptEnv where
  loginSuccess : Bool
  navRaise : Option String
  scanElems : List (Except String (String × String))
  bookAct : BookingSlot → BookOutcome
  today : Nat

/-- One execution of the body of `ICondoBot.attempt_booking`: `Except.error` is a
raised `BookingError` (login failure raises it directly; any other exception is
wrapped into one by the blanket handler), `Except.ok` is a normal return —
`some slot` when booked, `none` when no slot could be booked. -/
def attemptBookingOnce (env : AttemptEnv) (targetDate : Nat)
    (startPref endPref : PTime) (courts : List String) :
    Except String (Option BookingSlot) :=
  if !env.loginSuccess then Except.error "Login failed"
  else
    match env.navRaise with
    | some e => Except.error ("Booking failed: " ++ e)
    | none =>
      Except.ok (bookPreferredSlot env.bookAct targetDate startPref endPref courts
        (scanSlots env.today env.scanElems))

/-- Whether the attempt ended in the `Failed` kind (a raised `BookingError`). -/
def attemptFailed (r : Except String (Option BookingSlot)) : Bool :=
  match r with
  | .error _ => true
  | .ok _ => false

/-! ### The tenacity retry wrapper -/

/-- What one call of the wrapped attempt produced, as tenacity sees it: a normal
return value, a raised `BookingError` (the retryable type), or any other raised
exception (not retryable). -/
inductive AttemptOut where
  | ok (v : Option BookingSlot)
  | bookingError (msg : String)
  | otherExn (msg : String)
deriving DecidableEq, Repr

/-- Trace of one run of the retry wrapper: final outcome, how many times the
wrapped function was invoked, and the sleeps taken between invocations. -/
structure RetryTrace where
  result : AttemptOut
  calls : Nat
  delays : List Nat
deriving DecidableEq, Repr

/-- `wait_exponential(multiplier=1, min=2, max=10)` evaluated after the failure of
attempt number `n` (1-based): `max(min, min(multiplier * 2 ** n, max))`. -/
def tenacityWait (n : Nat) : Nat := max 2 (min (1 * 2 ^ n) 10)

/-- The retry loop of `stop_after_attempt(3)` / `retry_if_exception_type(BookingError)`
/ `reraise=True`: `i` is the 0-based index of the next attempt, the fuel is the
number of attempts still allowed. Only a `BookingError` is retried; on the last
allowed attempt whatever happens is returned/re-raised unchanged. -/
def retryGo (f : Nat → AttemptOut) : Nat → Nat → RetryTrace
  | i, 0 => ⟨f i, 1, []⟩
  | i, 1 => ⟨f i, 1, []⟩
  | i, r + 2 =>
    match f i with
    | .bookingError _ =>
      let t := retryGo f (i + 1) (r + 1)
      ⟨t.result, t.calls + 1, tenacityWait (i + 1) :: t.delays⟩
    | out => ⟨out, 1, []⟩

/-- The decorated `attempt_booking` as the retry wrapper sees it: up to 3 tries. -/
def attemptBookingWithRetry (f : Nat → AttemptOut) : RetryTrace :=
  retryGo f 0 3

/-! ### The daily scheduling decision `should_book_today` -/

/-- Days of the week (`DayOfWeek` enum in `settings.py`). -/
inductive DayOfWeek where
  | monday | tuesday | wednesday | thursday | friday | saturday | sunday
deriving DecidableEq, Repr

/-- The enum's string value, which is what the YAML config holds and what
`strftime("%A").lower()` is compared against. -/
def DayOfWeek.value : DayOfWeek → String
  | .monday => "monday"
  | .tuesday => "tuesday"
  | .wednesday => "wednesday"
  | .thursday => "thursday"
  | .friday => "friday"
  | .saturday => "saturday"
  | .sunday => "sunday"

/-- Weekday number of a day of the week, 0 = Sunday. -/
def DayOfWeek.idx : DayOfWeek → Nat
  | .sunday => 0
  | .monday => 1
  | .tuesday => 2
  | .wednesday => 3
  | .thursday => 4
  | .friday => 5
  | .saturday => 6

/-- Day count of a proleptic Gregorian calendar date (days since 0000-03-01),
the standard days-from-civil computation; `Python date` arithmetic (`+ timedelta`)
is addition on this count. -/
def civilToDays (y m d : Nat) : Nat :=
  let y2 := if m ≤ 2 then y - 1 else y
  let era := y2 / 400
  let yoe := y2 % 400
  let mp := if m > 2 then m - 3 else m + 9
  let doy := (153 * mp + 2) / 5 + d - 1
  let doe := yoe * 365 + yoe / 4 - yoe / 100 + doy
  era * 146097 + doe

/-- Weekday number (0 = Sunday) of a day count: day `civilToDays 1970 1 1` is a
Thursday. -/
def weekdayIdx (n : Nat) : Nat := (n + 3) % 7

/-- Lower-cased `strftime("%A")` of a day count. -/
def weekdayName (n : Nat) : String :=
  match weekdayIdx n with
  | 0 => "sunday"
  | 1 => "monday"
  | 2 => "tuesday"
  | 3 => "wednesday"
  | 4 => "thursday"
  | 5 => "friday"
  | _ => "saturday"

/-- `ICondoBot.should_book_today`, with `date.today()` and the settings made
explicit arguments: target day name tested for membership in the configured
preferred-day values. -/
def shouldBookToday (today advanceBookingDays : Nat)
    (preferredDays : List DayOfWeek) : Bool :=
  let target := today + advanceBookingDays
  let targetDay := weekdayName target
  (preferredDays.map DayOfWeek.value).contains targetDay

/-! ### Concrete fixtures used by witnesses and counterexamples -/

/-- An available slot starting 09:00, inside the default 08:00–11:00 window. -/
def slotAvail9 : BookingSlot := ⟨"Tennis Court", 0, ⟨9, 0⟩, ⟨10, 0⟩, true, none⟩

/-- An available slot starting 07:00, outside the default window. -/
def slotAvail7 : BookingSlot := ⟨"Tennis Court", 0, ⟨7, 0⟩, ⟨8, 0⟩, true, none⟩

/-- An unavailable slot whose start time is inside the default window. -/
def slotUnavail9 : BookingSlot := ⟨"Tennis Court", 0, ⟨9, 0⟩, ⟨10, 0⟩, false, none⟩

/-- An available slot on a court that appears in no preference list. -/
def slotCourtX : BookingSlot := ⟨"X", 0, ⟨9, 0⟩, ⟨10, 0⟩, true, none⟩

/-- An available slot on the last court of `bigCourts`. -/
def slotCourtLast : BookingSlot := ⟨"C999", 0, ⟨10, 0⟩, ⟨11, 0⟩, true, none⟩

/-- A preference list with 1000 distinct courts "C0" … "C999". -/
def bigCourts : List String := (List.range 1000).map (fun i => "C" ++ toString i)

/-- An attempt whose only page-interaction failure is an exception raised while
reading the first slot element during the scan. -/
def envScanBoom : AttemptEnv := ⟨true, none, [Except.error "boom"], fun _ => .noIndicator, 0⟩

/-- One scraped element that parses to an available 09:00 slot. -/
def scanElemsW : List (Except String (String × String)) :=
  [Except.ok ("slot available", "09:00")]

/-- A booking collaborator whose action raises on the 07:00 slot and succeeds on
any other slot. -/
def bookW : BookingSlot → BookOutcome :=
  fun s => if s.start_time.hour == 7 then BookOutcome.exn "click failed"
    else BookOutcome.success

/-! ### Helper lemmas -/

/-- Any slot the parser produces carries the constant court name and comes out with
`available = false` (the caller flips the flag). -/
lemma parseSlotText_court (today : Nat) (text : String) (i : Nat) (slot : BookingSlot)
    (h : parseSlotText today text i = some slot) :
    slot.court = "Tennis Court" ∧ slot.available = false := by
  unfold parseSlotText at h
  cases hm : firstTimeMatch text.toList with
  | none => rw [hm] at h; exact absurd h (by simp)
  | some v =>
    obtain ⟨h0, mOpt, amPm⟩ := v
    rw [hm] at h
    simp only at h
    split at h
    · cases h
      exact ⟨rfl, rfl⟩
    · exact absurd h (by simp)

/-- The two `time(...)` constructions in the parser succeed only with the recorded
hour/minute values. -/
lemma mkTime_eq_some {h m : Nat} {t : PTime} (he : mkTime h m = some t) :
    t = ⟨h, m⟩ ∧ h ≤ 23 ∧ m ≤ 59 := by
  unfold mkTime at he
  split at he
  · next hc =>
    cases he
    simp only [Bool.and_eq_true, decide_eq_true_eq] at hc
    exact ⟨rfl, hc.1, hc.2⟩
  · exact absurd he (by simp)

/-! ### C9 — parser slot invariant -/

/-- C9: every slot `_parse_slot_text` produces satisfies the fixed one-hour-duration
invariant — its end time is its start time plus exactly one hour, hence strictly
later; and when the first parsed time resolves to hour 23 (such as "23:00" or
"11 PM") no valid one-hour slot exists, so the parser returns `none` instead of
raising (`time(hour + 1, minute)` would raise `ValueError`, which the parser
catches). -/
theorem parseSlotText_one_hour :
    (∀ today text i slot, parseSlotText today text i = some slot →
      slot.end_time = ⟨slot.start_time.hour + 1, slot.start_time.minute⟩ ∧
      PTime.le slot.start_time slot.end_time = true ∧
      slot.start_time ≠ slot.end_time) ∧
    (∀ today i, parseSlotText today "23:00" i = none) ∧
    (∀ today i, parseSlotText today "11 PM" i = none) := by
  refine ⟨?_, fun today i => rfl, fun today i => rfl⟩
  intro today text i slot h
  unfold parseSlotText at h
  cases hm : firstTimeMatch text.toList with
  | none => rw [hm] at h; exact absurd h (by simp)
  | some v =>
    obtain ⟨h0, mOpt, amPm⟩ := v
    rw [hm] at h
    simp only at h
    split at h
    · next s e hs he =>
      cases h
      obtain ⟨hs1, -, -⟩ := mkTime_eq_some hs
      obtain ⟨he1, -, -⟩ := mkTime_eq_some he
      subst hs1; subst he1
      refine ⟨rfl, ?_, ?_⟩
      · simp only [PTime.le, decide_eq_true_eq]
        left; omega
      · intro hcontra
        have : _ = _ := congrArg PTime.hour hcontra
        simp only at this
        omega
    · exact absurd h (by simp)

/-- Witness for C9: the invariant instantiated on the concrete text "08:00". -/
theorem parseSlotText_one_hour_witness :
    BookingSlot.end_time
        { court := "Tennis Court", date := 0, start_time := ⟨8, 0⟩, end_time := ⟨9, 0⟩,
          available := false, element_selector := some (slotSelector 0) } =
      ⟨8 + 1, 0⟩ ∧
    PTime.le ⟨8, 0⟩ ⟨9, 0⟩ = true ∧ (⟨8, 0⟩ : PTime) ≠ ⟨9, 0⟩ :=
  parseSlotText_one_hour.1 0 "08:00" 0
    { court := "Tennis Court", date := 0, start_time := ⟨8, 0⟩, end_time := ⟨9, 0⟩,
      available := false, element_selector := some (slotSelector 0) } (by decide)

/-! ### C7 — the daily scheduling decision -/

/-- Comparing the target day's name against a preferred day's enum value is the same
as comparing weekday numbers. -/
lemma weekdayName_beq_value (d : DayOfWeek) (t : Nat) :
    (weekdayName t == d.value) = (d.idx == weekdayIdx t) := by
  unfold weekdayName weekdayIdx
  have h7 : (t + 3) % 7 < 7 := Nat.mod_lt _ (by omega)
  generalize hk : (t + 3) % 7 = k at *
  interval_cases k <;> cases d <;> decide

/-- Membership of the target day name in the mapped enum values is weekday-number
membership. -/
lemma contains_day (t : Nat) (days : List DayOfWeek) :
    (days.map DayOfWeek.value).contains (weekdayName t) =
      days.any (fun d => d.idx == weekdayIdx t) := by
  induction days with
  | nil => rfl
  | cons d ds ih =>
    simp only [List.map_cons, List.contains_cons, List.any_cons, ih,
      weekdayName_beq_value]

/-- C7: `should_book_today` computes `target = today + advance_booking_days` and
returns true exactly when target's weekday is one of the preferred weekdays; it is a
pure function of its inputs (in this embedding it is a plain function, so identical
inputs give identical outputs definitionally); and on the spec's example —
2024-06-03 (a Monday) with a 7-day advance — the target 2024-06-10 is again a
Monday, so with preferred weekdays {Saturday, Sunday} the result is false. -/
theorem should_book_today_spec :
    (∀ today adv days, shouldBookToday today adv days =
      days.any (fun d => d.idx == weekdayIdx (today + adv))) ∧
    civilToDays 2024 6 3 + 7 = civilToDays 2024 6 10 ∧
    weekdayIdx (civilToDays 2024 6 3) = DayOfWeek.monday.idx ∧
    weekdayIdx (civilToDays 2024 6 10) = DayOfWeek.monday.idx ∧
    shouldBookToday (civilToDays 2024 6 3) 7
      [DayOfWeek.saturday, DayOfWeek.sunday] = false := by
  refine ⟨?_, by decide, by decide, by decide, by decide⟩
  intro today adv days
  unfold shouldBookToday
  exact contains_day (today + adv) days

/-! ### C2 — what the retry wrapper retries -/

/-- C2: the wrapper around one full booking attempt retries only when the attempt
raises the retryable `BookingError` kind; an attempt that returns normally — a
booked slot (`ok (some _)`) or the no-slots `None` (`ok none`) — is never retried,
nor is a non-`BookingError` exception; at most 3 total invocations happen; and when
all three tries raise `BookingError`, the last failure is re-raised unchanged
(`reraise=True`), not swallowed or replaced. -/
theorem attempt_retry_policy :
    ∀ f : Nat → AttemptOut,
      (∀ v, f 0 = AttemptOut.ok v →
        attemptBookingWithRetry f = ⟨AttemptOut.ok v, 1, []⟩) ∧
      (∀ m, f 0 = AttemptOut.otherExn m →
        attemptBookingWithRetry f = ⟨AttemptOut.otherExn m, 1, []⟩) ∧
      (∀ m0 m1 m2, f 0 = AttemptOut.bookingError m0 → f 1 = AttemptOut.bookingError m1 →
        f 2 = AttemptOut.bookingError m2 →
        attemptBookingWithRetry f =
          ⟨AttemptOut.bookingError m2, 3, [tenacityWait 1, tenacityWait 2]⟩) ∧
      (attemptBookingWithRetry f).calls ≤ 3 := by
  intro f
  refine ⟨?_, ?_, ?_, ?_⟩
  · intro v h
    simp [attemptBookingWithRetry, retryGo, h]
  · intro m h
    simp [attemptBookingWithRetry, retryGo, h]
  · intro m0 m1 m2 h0 h1 h2
    simp [attemptBookingWithRetry, retryGo, h0, h1, h2]
  · cases hf0 : f 0 <;> simp [attemptBookingWithRetry, retryGo, hf0]
    cases hf1 : f 1 <;> simp [retryGo, hf1]

/-- Witness for C2: an attempt that raises `BookingError` every time is invoked
exactly 3 times and the wrapper re-raises the last failure. -/
theorem attempt_retry_policy_witness :
    attemptBookingWithRetry (fun _ => AttemptOut.bookingError "boom") =
      ⟨AttemptOut.bookingError "boom", 3, [tenacityWait 1, tenacityWait 2]⟩ :=
  ((attempt_retry_policy (fun _ => AttemptOut.bookingError "boom")).2.2.1)
    "boom" "boom" "boom" rfl rfl rfl

/-! ### C8 — backoff delays -/

/-- C8: the delay before retry N equals `min(max_delay, base * 2^(N-1))` with base 2
and cap 10 — exactly the `wait_exponential(multiplier=1, min=2, max=10)` value; and
for an attempt that fails twice then succeeds under `stop_after_attempt(3)`, the
function runs exactly 3 times with the two delays 2 and 4 — each at least the base,
at most the cap, and non-decreasing. -/
theorem backoff_delay_formula :
    (∀ N, 1 ≤ N → tenacityWait N = min 10 (2 * 2 ^ (N - 1))) ∧
    (∀ (f : Nat → AttemptOut) v m0 m1,
      f 0 = AttemptOut.bookingError m0 → f 1 = AttemptOut.bookingError m1 →
      f 2 = AttemptOut.ok v →
      attemptBookingWithRetry f = ⟨AttemptOut.ok v, 3, [2, 4]⟩ ∧
      (attemptBookingWithRetry f).delays.Pairwise (fun a b => a ≤ b) ∧
      ∀ d ∈ (attemptBookingWithRetry f).delays, 2 ≤ d ∧ d ≤ 10) := by
  constructor
  · intro N hN
    obtain ⟨n, rfl⟩ : ∃ n, N = n + 1 := ⟨N - 1, by omega⟩
    have hpow : 2 * 2 ^ n = 2 ^ (n + 1) := by
      rw [pow_succ, Nat.mul_comm]
    have h2 : 2 ≤ 2 ^ (n + 1) := by
      calc 2 = 2 ^ 1 := rfl
        _ ≤ 2 ^ (n + 1) := Nat.pow_le_pow_right (by omega) (by omega)
    unfold tenacityWait
    simp only [Nat.add_sub_cancel, hpow, one_mul]
    omega
  · intro f v m0 m1 h0 h1 h2
    have htrace : attemptBookingWithRetry f = ⟨AttemptOut.ok v, 3, [2, 4]⟩ := by
      have w1 : tenacityWait 1 = 2 := by decide
      have w2 : tenacityWait 2 = 4 := by decide
      simp [attemptBookingWithRetry, retryGo, h0, h1, h2, w1, w2]
    refine ⟨htrace, ?_, ?_⟩
    · rw [htrace]
      show List.Pairwise (fun a b => a ≤ b) [2, 4]
      decide
    · rw [htrace]
      show ∀ d ∈ [2, 4], 2 ≤ d ∧ d ≤ 10
      decide

/-- Witness for C8: the formula at N = 1 and the fails-twice-then-succeeds run. -/
theorem backoff_delay_formula_witness :
    tenacityWait 1 = min 10 (2 * 2 ^ (1 - 1)) ∧
    attemptBookingWithRetry
        (fun i => if i < 2 then AttemptOut.bookingError "e" else AttemptOut.ok none) =
      ⟨AttemptOut.ok none, 3, [2, 4]⟩ :=
  ⟨backoff_delay_formula.1 1 (by decide),
    (backoff_delay_formula.2
      (fun i => if i < 2 then AttemptOut.bookingError "e" else AttemptOut.ok none)
      none "e" "e" rfl rfl rfl).1⟩

/-! ### C1 — time-window filter and fallback -/

/-- C1 (amended): slot selection first keeps the available slots whose start time
lies in the inclusive preferred window; exactly when that set is empty it falls back
to all available slots instead of failing; and whenever at least one available
slot's time lies in the window, the fallback branch is not taken. (The amendment:
the slot witnessing the window must be available — an unavailable slot with an
in-window time does not prevent the fallback, see the counterexample.) -/
theorem window_filter_fallback :
    ∀ (sp ep : PTime) (slots : List BookingSlot),
      (∀ s, s ∈ windowFiltered sp ep slots ↔ s ∈ slots ∧
        (s.available && PTime.le sp s.start_time && PTime.le s.start_time ep) = true) ∧
      (windowFiltered sp ep slots = [] →
        candidateSlots sp ep slots = slots.filter (fun s => s.available)) ∧
      (windowFiltered sp ep slots ≠ [] →
        candidateSlots sp ep slots = windowFiltered sp ep slots) ∧
      ((∃ s ∈ slots, s.available = true ∧ PTime.le sp s.start_time = true ∧
          PTime.le s.start_time ep = true) → usesFallback sp ep slots = false) := by
  intro sp ep slots
  refine ⟨fun s => List.mem_filter, ?_, ?_, ?_⟩
  · intro h
    unfold candidateSlots
    simp [h]
  · intro h
    unfold candidateSlots
    simp only [List.isEmpty_iff]
    rw [if_neg h]
  · rintro ⟨s, hs, ha, h1, h2⟩
    have hmem : s ∈ windowFiltered sp ep slots := by
      apply List.mem_filter.mpr
      exact ⟨hs, by simp [ha, h1, h2]⟩
    unfold usesFallback
    cases hEmpty : (windowFiltered sp ep slots).isEmpty
    · rfl
    · rw [List.isEmpty_iff] at hEmpty
      rw [hEmpty] at hmem
      cases hmem

/-- Witness for C1: with window 08:00–11:00, a single available 09:00 slot keeps the
fallback branch unused, and a slot set whose window filter is empty falls back to
all available slots. -/
theorem window_filter_fallback_witness :
    usesFallback ⟨8, 0⟩ ⟨11, 0⟩ [slotAvail9] = false ∧
    candidateSlots ⟨8, 0⟩ ⟨11, 0⟩ [slotAvail7] =
      List.filter (fun s => s.available) [slotAvail7] :=
  ⟨(window_filter_fallback ⟨8, 0⟩ ⟨11, 0⟩ [slotAvail9]).2.2.2 (by decide),
    (window_filter_fallback ⟨8, 0⟩ ⟨11, 0⟩ [slotAvail7]).2.1 (by decide)⟩

/-- C1 counterexample: an unavailable slot whose start time (09:00) lies inside the
preferred window [08:00, 11:00] — a slot's time lies in the window, yet the
window-filtered set is empty and the code's fallback branch runs, contradicting the
claim that the fallback is never used when some slot's time lies in the window. -/
theorem window_filter_fallback_cex :
    PTime.le ⟨8, 0⟩ slotUnavail9.start_time = true ∧
    PTime.le slotUnavail9.start_time ⟨11, 0⟩ = true ∧
    usesFallback ⟨8, 0⟩ ⟨11, 0⟩ [slotUnavail9] = true := by decide

/-! ### C4 — only available slots are ranked -/

/-- C4: for every slot list, the ordered candidate sequence produced by slot
selection contains no slot with `available = false`: both the window branch and the
fallback branch filter on the availability flag before the court-priority sort. -/
theorem rank_only_available :
    ∀ (sp ep : PTime) (courts : List String) (slots : List BookingSlot)
      (s : BookingSlot), s ∈ rankSlots sp ep courts slots → s.available = true := by
  intro sp ep courts slots s h
  unfold rankSlots sortByCourt at h
  rw [List.mem_insertionSort] at h
  simp only [candidateSlots] at h
  split at h
  · exact (List.mem_filter.mp h).2
  · have := (List.mem_filter.mp h).2
    simp only [Bool.and_eq_true] at this
    exact this.1.1

/-- Witness for C4: the ranked output of a concrete scan contains an available slot
and the theorem applies to it. -/
theorem rank_only_available_witness : slotAvail9.available = true :=
  rank_only_available ⟨8, 0⟩ ⟨11, 0⟩ [] [slotAvail9] slotAvail9 (by decide)

/-! ### C3 — stable sort by court priority -/

/-- The dict lookup misses exactly when the court is absent (accumulator form). -/
lemma lastIdxFrom_eq_none (c : String) : ∀ (l : List String) (i : Nat) (acc : Option Nat),
    lastIdxFrom c l i acc = none ↔ (acc = none ∧ c ∉ l) := by
  intro l
  induction l with
  | nil => intro i acc; simp [lastIdxFrom]
  | cons x rest ih =>
    intro i acc
    simp only [lastIdxFrom, List.mem_cons]
    split
    · next hxc =>
      rw [ih]
      have hcx : c = x := (beq_iff_eq.mp hxc).symm
      simp [hcx]
    · next hxc =>
      rw [ih]
      have hcx : ¬c = x := fun he => hxc (beq_iff_eq.mpr he.symm)
      simp [hcx]

/-- Any index the dict lookup returns is below the running bound. -/
lemma lastIdxFrom_lt (c : String) : ∀ (l : List String) (i : Nat) (acc : Option Nat)
    (j : Nat), (∀ a, acc = some a → a < i) → lastIdxFrom c l i acc = some j →
    j < i + l.length := by
  intro l
  induction l with
  | nil =>
    intro i acc j hacc h
    simp only [lastIdxFrom] at h
    have := hacc j h
    simp only [List.length_nil]
    omega
  | cons x rest ih =>
    intro i acc j hacc h
    simp only [lastIdxFrom] at h
    have h2 : ∀ a, (if (x == c) = true then some i else acc) = some a → a < i + 1 := by
      intro a ha
      split at ha
      · cases ha; omega
      · have := hacc a ha; omega
    have := ih (i + 1) _ j h2 h
    simp only [List.length_cons]
    omega

/-- An absent court gets the sentinel priority 999. -/
lemma courtPriority_of_not_mem {courts : List String} {c : String} (h : c ∉ courts) :
    courtPriority courts c = 999 := by
  unfold courtPriority
  rw [(lastIdxFrom_eq_none c courts 0 none).mpr ⟨rfl, h⟩]
  rfl

/-- A present court gets a priority below the list length. -/
lemma courtPriority_of_mem {courts : List String} {c : String} (h : c ∈ courts) :
    courtPriority courts c < courts.length := by
  unfold courtPriority
  cases hl : lastIdxFrom c courts 0 none with
  | none =>
    have := (lastIdxFrom_eq_none c courts 0 none).mp hl
    exact absurd h this.2
  | some j =>
    have := lastIdxFrom_lt c courts 0 none j (by intro a ha; cases ha) hl
    simpa using this

/-- C3 (amended): slot selection sorts the candidates stably by court priority — the
output is ordered by the sort key (the index of the court's last occurrence in the
preferred-courts list, or the sentinel 999 when absent); provided the preferred
list has at most 999 entries, every slot with an unranked court sorts after all
slots with ranked courts; and slots with equal priority keep their relative input
order (the sublist of any fixed key value is unchanged). (Amendments: the length
bound — with 1000 or more preferred courts the sentinel 999 collides with real
indices, see the counterexample — and "index" reads as the last occurrence's index,
matching the dict comprehension.) -/
theorem court_sort_spec :
    ∀ (courts : List String) (l : List BookingSlot), courts.length ≤ 999 →
      (sortByCourt courts l).Pairwise
        (fun a b => slotKey courts a ≤ slotKey courts b) ∧
      (sortByCourt courts l).Pairwise
        (fun a b => a.court ∉ courts → b.court ∉ courts) ∧
      (∀ k, (sortByCourt courts l).filter (fun s => slotKey courts s == k) =
        l.filter (fun s => slotKey courts s == k)) := by
  intro courts l hlen
  haveI htot : IsTotal BookingSlot (fun a b => slotKey courts a ≤ slotKey courts b) :=
    ⟨fun a b => Nat.le_total _ _⟩
  haveI htrans : IsTrans BookingSlot (fun a b => slotKey courts a ≤ slotKey courts b) :=
    ⟨fun _ _ _ => Nat.le_trans⟩
  have hsorted := List.sorted_insertionSort
    (fun a b => slotKey courts a ≤ slotKey courts b) l
  refine ⟨hsorted, ?_, ?_⟩
  · refine hsorted.imp ?_
    intro a b hle ha
    intro hb
    have h1 : slotKey courts a = 999 := courtPriority_of_not_mem ha
    have h2 : slotKey courts b < 999 :=
      Nat.lt_of_lt_of_le (courtPriority_of_mem hb) hlen
    omega
  · intro k
    set p : BookingSlot → Bool := fun s => slotKey courts s == k with hp
    set c : List BookingSlot := l.filter p with hcdef
    have hmemkey : ∀ a ∈ c, slotKey courts a = k := by
      intro a hain
      have := (List.mem_filter.mp hain).2
      simpa [hp] using this
    have hc : c.Pairwise (fun a b => slotKey courts a ≤ slotKey courts b) := by
      apply List.pairwise_of_forall_mem_list
      intro a hain b hbin
      rw [hmemkey a hain, hmemkey b hbin]
    have h1 : List.Sublist c (List.insertionSort
        (fun a b => slotKey courts a ≤ slotKey courts b) l) :=
      List.sublist_insertionSort hc (List.filter_sublist l)
    have h2 : List.Sublist (c.filter p) ((sortByCourt courts l).filter p) := by
      unfold sortByCourt
      exact h1.filter p
    have hcfix : c.filter p = c := by
      apply List.filter_eq_self.mpr
      intro a hain
      exact (List.mem_filter.mp hain).2
    rw [hcfix] at h2
    have hlen2 : ((sortByCourt courts l).filter p).length = c.length := by
      have hperm : List.Perm (sortByCourt courts l) l := List.perm_insertionSort _ l
      rw [hcdef]
      exact (hperm.filter p).length_eq
    exact (h2.eq_of_length hlen2.symm).symm

/-- Witness for C3: the theorem at the default two-court preference list, a
two-slot input, and key value 999. -/
theorem court_sort_spec_witness :
    (sortByCourt ["Tennis Court 1", "Tennis Court 2"] [slotCourtX, slotAvail9]).Pairwise
      (fun a b => slotKey ["Tennis Court 1", "Tennis Court 2"] a ≤
        slotKey ["Tennis Court 1", "Tennis Court 2"] b) ∧
    (sortByCourt ["Tennis Court 1", "Tennis Court 2"]
        [slotCourtX, slotAvail9]).filter
      (fun s => slotKey ["Tennis Court 1", "Tennis Court 2"] s == 999) =
      List.filter (fun s => slotKey ["Tennis Court 1", "Tennis Court 2"] s == 999)
        [slotCourtX, slotAvail9] :=
  ⟨(court_sort_spec ["Tennis Court 1", "Tennis Court 2"] [slotCourtX, slotAvail9]
      (by decide)).1,
    (court_sort_spec ["Tennis Court 1", "Tennis Court 2"] [slotCourtX, slotAvail9]
      (by decide)).2.2 999⟩

set_option maxRecDepth 40000 in
/-- C3 counterexample: with 1000 distinct preferred courts "C0" … "C999", a slot
whose court "X" is absent from the list ties (at the sentinel key 999) with a slot
on the ranked court "C999" (index 999), and the stable sort leaves the absent-court
slot before the ranked-court slot — so a slot whose court is absent does not sort
after all slots whose court is ranked. -/
theorem court_sort_spec_cex :
    slotCourtX.court ∉ bigCourts ∧ slotCourtLast.court ∈ bigCourts ∧
    sortByCourt bigCourts [slotCourtX, slotCourtLast] =
      [slotCourtX, slotCourtLast] := by
  refine ⟨by decide, by decide, by decide⟩

/-! ### C10 — constant court name from the scanner -/

/-- Every slot the scan loop emits keeps the parser's constant court name. -/
lemma scanGo_court (today : Nat) : ∀ (elems : List (Except String (String × String)))
    (i : Nat) (s : BookingSlot), s ∈ scanGo today i elems → s.court = "Tennis Court" := by
  intro elems
  induction elems with
  | nil => intro i s h; cases h
  | cons e rest ih =>
    intro i s h
    match e with
    | Except.error _ => cases h
    | Except.ok (classAttr, text) =>
      simp only [scanGo] at h
      split at h
      · exact ih (i + 1) s h
      · cases hp : parseSlotText today text i with
        | none => rw [hp] at h; exact ih (i + 1) s h
        | some slot =>
          rw [hp] at h
          simp only at h
          split at h
          · rcases List.mem_cons.mp h with h1 | h1
            · subst h1
              exact (parseSlotText_court today text i slot hp).1
            · exact ih (i + 1) s h1
          · exact ih (i + 1) s h

/-- Candidates are drawn from the scanned list (both branches are filters). -/
lemma mem_of_mem_candidateSlots {sp ep : PTime} {slots : List BookingSlot}
    {s : BookingSlot} (h : s ∈ candidateSlots sp ep slots) : s ∈ slots := by
  simp only [candidateSlots] at h
  split at h
  · exact (List.mem_filter.mp h).1
  · exact (List.mem_filter.mp h).1

/-- C10: every slot returned by the scanner carries the constant court name
"Tennis Court" (the parser never extracts a per-slot court identifier); hence when
"Tennis Court" is not among the preferred courts, every scanned slot gets the same
sentinel sort key 999 and the stable court-priority sort leaves the window-filtered
candidate order of scanned slots unchanged. -/
theorem scanned_court_constant :
    ∀ (today : Nat) (elems : List (Except String (String × String)))
      (sp ep : PTime) (courts : List String),
      "Tennis Court" ∉ courts →
      (∀ s ∈ scanSlots today elems, s.court = "Tennis Court") ∧
      (∀ s ∈ scanSlots today elems, slotKey courts s = 999) ∧
      sortByCourt courts (candidateSlots sp ep (scanSlots today elems)) =
        candidateSlots sp ep (scanSlots today elems) := by
  intro today elems sp ep courts hnc
  have hcourt : ∀ s ∈ scanSlots today elems, s.court = "Tennis Court" :=
    fun s h => scanGo_court today elems 0 s h
  have hkey : ∀ s ∈ scanSlots today elems, slotKey courts s = 999 := by
    intro s h
    unfold slotKey
    rw [hcourt s h]
    exact courtPriority_of_not_mem hnc
  refine ⟨hcourt, hkey, ?_⟩
  unfold sortByCourt
  apply List.Sorted.insertionSort_eq
  apply List.pairwise_of_forall_mem_list
  intro a ha b hb
  rw [hkey a (mem_of_mem_candidateSlots ha), hkey b (mem_of_mem_candidateSlots hb)]

/-- Witness for C10: a concrete scan under the default preference list. -/
theorem scanned_court_constant_witness :
    sortByCourt ["Tennis Court 1", "Tennis Court 2"]
        (candidateSlots ⟨8, 0⟩ ⟨11, 0⟩ (scanSlots 0 scanElemsW)) =
      candidateSlots ⟨8, 0⟩ ⟨11, 0⟩ (scanSlots 0 scanElemsW) :=
  (scanned_court_constant 0 scanElemsW ⟨8, 0⟩ ⟨11, 0⟩
    ["Tennis Court 1", "Tennis Court 2"] (by decide)).2.2

/-! ### C5 — what a scan-time failure does to the attempt -/

/-- An exception while reading element `pre.length` truncates the scan to the slots
collected from the elements before it. -/
lemma scanGo_append_error (today : Nat) (e : String)
    (rest : List (Except String (String × String))) :
    ∀ (pre : List (String × String)) (i : Nat),
    scanGo today i (pre.map Except.ok ++ Except.error e :: rest) =
      scanGo today i (pre.map Except.ok) := by
  intro pre
  induction pre with
  | nil => intro i; rfl
  | cons hd tl ih =>
    intro i
    obtain ⟨classAttr, text⟩ := hd
    simp only [List.map_cons, List.cons_append, scanGo]
    split
    · exact ih (i + 1)
    · cases hp : parseSlotText today text i <;> simp only [hp]
      · exact ih (i + 1)
      · split
        · exact congrArg _ (ih (i + 1))
        · exact ih (i + 1)

/-- C5 (amended): an unexpected page-interaction failure while scanning slots is
caught inside the scanner, which keeps the slots collected before the failure —
the attempt does not end in the retryable `Failed` kind because of it. The attempt
ends in `Failed` exactly when login fails or an exception is raised outside the
scan loop's own handler (navigation and the like), which are wrapped into the same
retryable `BookingError` kind with no differentiated handling. -/
theorem scan_error_not_failed :
    (∀ (env : AttemptEnv) (td : Nat) (sp ep : PTime) (courts : List String),
      attemptFailed (attemptBookingOnce env td sp ep courts) =
        (!env.loginSuccess || env.navRaise.isSome)) ∧
    (∀ (today : Nat) (pre : List (String × String)) (e : String)
      (rest : List (Except String (String × String))),
      scanSlots today (pre.map Except.ok ++ Except.error e :: rest) =
        scanSlots today (pre.map Except.ok)) := by
  constructor
  · intro env td sp ep courts
    unfold attemptBookingOnce attemptFailed
    cases hl : env.loginSuccess with
    | false => simp
    | true =>
      simp only [Bool.not_true, Bool.false_or]
      cases hn : env.navRaise with
      | some e => simp
      | none => simp
  · intro today pre e rest
    exact scanGo_append_error today e rest pre 0

/-- C5 counterexample: an exception raised by the slot-element collaborator during
the scan (first element read raises "boom") does not end the attempt in the
retryable `Failed` kind — the attempt returns normally with no booked slot
(`NoSlotsFound`), contradicting the claim that a `ScanError` is wrapped like
`LoginFailed` and counts toward the retry budget. -/
theorem scan_error_not_failed_cex :
    attemptBookingOnce envScanBoom 7 ⟨8, 0⟩ ⟨11, 0⟩ [] = Except.ok none ∧
    attemptFailed (attemptBookingOnce envScanBoom 7 ⟨8, 0⟩ ⟨11, 0⟩ []) = false :=
  ⟨rfl, rfl⟩

/-! ### C6 — the per-slot booking loop -/

/-- C6: the booking loop tries the ranked slots in order — the first slot whose
booking action reports success ends the attempt with that slot, carrying the
resolved target date stamped onto it; a single slot's failure (no success
indicator, or an exception, both of which `book_slot` turns into `False`) only
advances the loop; and when the ranked list is empty or every slot fails to book,
the attempt ends with the `None` result (`NoSlotsFound`), not the `Failed` kind. -/
theorem booking_loop_order :
    ∀ (book : BookingSlot → BookOutcome) (d : Nat),
      (∀ (pre : List BookingSlot) (s : BookingSlot) (rest : List BookingSlot),
        (∀ p ∈ pre, bookSlotResult (book { p with date := d }) = false) →
        bookSlotResult (book { s with date := d }) = true →
        tryBook book d (pre ++ s :: rest) = some { s with date := d }) ∧
      (∀ l, (∀ s ∈ l, bookSlotResult (book { s with date := d }) = false) →
        tryBook book d l = none) ∧
      tryBook book d [] = none ∧
      (∀ (env : AttemptEnv) (td : Nat) (sp ep : PTime) (courts : List String),
        env.loginSuccess = true → env.navRaise = none →
        (∀ s, bookSlotResult (env.bookAct s) = false) →
        attemptBookingOnce env td sp ep courts = Except.ok none) := by
  intro book d
  refine ⟨?_, ?_, rfl, ?_⟩
  · intro pre
    induction pre with
    | nil =>
      intro s rest hpre hs
      simp only [List.nil_append, tryBook]
      rw [if_pos hs]
    | cons p tl ih =>
      intro s rest hpre hs
      simp only [List.cons_append, tryBook]
      rw [if_neg (by simp [hpre p (List.mem_cons_self p tl)])]
      exact ih s rest (fun q hq => hpre q (List.mem_cons_of_mem p hq)) hs
  · intro l hall
    induction l with
    | nil => rfl
    | cons s tl ih =>
      simp only [tryBook]
      rw [if_neg (by simp [hall s (List.mem_cons_self s tl)])]
      exact ih (fun q hq => hall q (List.mem_cons_of_mem s hq))
  · intro env td sp ep courts hlogin hnav hfail
    have hnone : ∀ l, tryBook env.bookAct td l = none := by
      intro l
      induction l with
      | nil => rfl
      | cons s tl ih =>
        simp only [tryBook]
        rw [if_neg (by simp [hfail])]
        exact ih
    unfold attemptBookingOnce
    rw [hlogin, hnav]
    simp only [Bool.not_true, Bool.false_eq_true, if_false]
    unfold bookPreferredSlot
    dsimp only
    split
    · rfl
    · split
      · rfl
      · rw [hnone]

/-- Witness for C6: booking raises on the first ranked slot (07:00) and succeeds on
the second (09:00); the loop returns the second slot stamped with target date 5. -/
theorem booking_loop_order_witness :
    tryBook bookW 5 [slotAvail7, slotAvail9] =
      some { slotAvail9 with date := 5 } :=
  (booking_loop_order bookW 5).1 [slotAvail7] slotAvail9 []
    (by intro p hp; fin_cases hp; decide) (by decide)

end TennisBot
